import Mathlib

/-!
Shallow embedding of the auction engine of `src/main.py` (a Telegram auction
bot backed by sqlite).  Tables become lists of records, the singleton
`auction_state` row becomes two booleans, and every handler that touches
bidding state becomes a pure function on the whole database value.
Presentation-only columns (photo ids, channel message ids, timestamps that
are merely stored and echoed) are omitted; every column the modelled
handlers read or write is kept.  Telegram sends whose exceptions the source
catches and logs are modelled as having no effect on the database.
-/

/-- One row of the `items` table, restricted to the columns the modelled
handlers read or write.  A TM submission leaves `name` NULL and a Pokémon
submission leaves `tmNumber`/`tmName` NULL (see `complete_submission` in the
source). -/
structure Item where
  itemId : String
  userId : Int
  username : Option String
  itemType : String
  name : Option String
  tmNumber : Option Int
  tmName : Option String
  basePrice : Int
  status : String
  highestBid : Option Int
  highestBidderId : Option Int
  highestBidderName : Option String
deriving DecidableEq, Repr

/-- One row of the `users` table (columns the modelled handlers touch). -/
structure UserRow where
  userId : Int
  isBanned : Bool
  submissionsCount : Int
  bidsCount : Int
deriving DecidableEq, Repr

/-- One row of the append-only `bids` table. -/
structure BidRow where
  itemId : String
  userId : Int
  username : Option String
  firstName : String
  amount : Int
  bidTime : String
deriving DecidableEq, Repr

/-- The whole database together with the singleton `auction_state` row. -/
structure Db where
  items : List Item
  users : List UserRow
  bids : List BidRow
  submissionsOpen : Bool
  biddingOpen : Bool
deriving DecidableEq, Repr

/-- A Telegram user as the handlers see it (`update.effective_user`). -/
structure Bidder where
  id : Int
  username : Option String
  firstName : String
deriving DecidableEq, Repr

/-- Models the single-row user lookup of `bid` (main.py:760-762), a
SELECT of the banned flag by user id followed by a truthiness test:
a user without a row counts as not banned. -/
def lookupUser (db : Db) (uid : Int) : Option UserRow :=
  db.users.find? (fun r => r.userId == uid)

/-- The ban test of `bid` (main.py:762).  Missing row: Python falsiness of
`None`; present row: truthiness of the `is_banned` column. -/
def isBannedUser (db : Db) (uid : Int) : Bool :=
  match lookupUser db uid with
  | some r => r.isBanned
  | none => false

/-- Models the item query of `bid` (main.py:768-772): SELECT by item id
with status approved, taking the first row. -/
def findApprovedItem (db : Db) (itemId : String) : Option Item :=
  db.items.find? (fun it => it.itemId == itemId && it.status == "approved")

/-- Models the current-price computation of `bid` (main.py:785): the
highest bid if truthy, else the base price.  Python truthiness: both
NULL and 0 fall back to the base price. -/
def currentPriceOf (it : Item) : Int :=
  match it.highestBid with
  | some b => if b = 0 then it.basePrice else b
  | none => it.basePrice

/-- The increment-tier selection of `bid` (main.py:795-799). -/
def bidIncrement (currentBid : Int) : Int :=
  if currentBid ≥ 50000 then 5000
  else if currentBid ≥ 20000 then 2000
  else 1000

/-- The user-visible outcome of one `/bid` attempt.  Each constructor is one
distinct `reply_text` branch of `bid` in the source; the numeric payloads
are the numbers interpolated into the corresponding message. -/
inductive BidOutcome where
  | invalidAmount
  | biddingClosed
  | bidderBanned
  | itemNotBiddable
  | selfBid
  | notHigher (currentBid : Int)
  | belowMinIncrement (increment minAcceptable : Int)
  | accepted (amount : Int)
  | processingFailed
deriving DecidableEq, Repr

/-- The three writes of the bid transaction (main.py:814-838): update the
item row, append one `bids` row, and bump `bids_count` on the bidder's
`users` row (a plain `UPDATE`, so a bidder with no row is a no-op). -/
def applyAcceptedBid (db : Db) (u : Bidder) (itemId : String) (amount : Int)
    (bidTime : String) : Db :=
  { db with
    items := db.items.map (fun it =>
      if it.itemId = itemId then
        { it with highestBid := some amount, highestBidderId := some u.id,
                  highestBidderName := some u.firstName }
      else it),
    bids := db.bids ++ [{ itemId := itemId, userId := u.id,
                          username := u.username, firstName := u.firstName,
                          amount := amount, bidTime := bidTime }],
    users := db.users.map (fun r =>
      if r.userId = u.id then { r with bidsCount := r.bidsCount + 1 } else r) }

/-- The item-directed part of `bid` (main.py:767-896): item lookup,
self-bid check, the two price checks, and the transaction.  The source's
locals `current_bid` and `increment` are inlined as `currentPriceOf item`
and `bidIncrement (currentPriceOf item)`.  `storageOk` models whether the
sqlite transaction commits; on failure the source rolls back, so the
database is returned unchanged with a generic failure. -/
def bidItemPhase (db : Db) (u : Bidder) (itemId : String) (amount : Int)
    (storageOk : Bool) (bidTime : String) : BidOutcome × Db :=
  match findApprovedItem db itemId with
  | none => (BidOutcome.itemNotBiddable, db)
  | some item =>
    if u.id = item.userId then (BidOutcome.selfBid, db)
    else if amount ≤ currentPriceOf item then
      (BidOutcome.notHigher (currentPriceOf item), db)
    else if amount < currentPriceOf item + bidIncrement (currentPriceOf item) then
      (BidOutcome.belowMinIncrement (bidIncrement (currentPriceOf item))
        (currentPriceOf item + bidIncrement (currentPriceOf item)), db)
    else if storageOk then
      (BidOutcome.accepted amount, applyAcceptedBid db u itemId amount bidTime)
    else (BidOutcome.processingFailed, db)

/-- The `/bid` handler `bid` (main.py:735-896) as a state transformer.  The
checks appear in source order: amount parse/positivity, `bidding_open`,
ban, then `bidItemPhase`.  The post-commit channel edit and notification
sends are caught-and-logged in the source and have no database effect. -/
def placeBid (db : Db) (u : Bidder) (itemId : String) (amount : Int)
    (storageOk : Bool) (bidTime : String) : BidOutcome × Db :=
  if amount ≤ 0 then (BidOutcome.invalidAmount, db)
  else if db.biddingOpen = false then (BidOutcome.biddingClosed, db)
  else if isBannedUser db u.id = true then (BidOutcome.bidderBanned, db)
  else bidItemPhase db u itemId amount storageOk bidTime

/-- One `/bid` attempt, for iterating `placeBid` over a sequence. -/
structure BidAttempt where
  user : Bidder
  itemId : String
  amount : Int
  storageOk : Bool
  time : String

/-- Fold a sequence of bid attempts through `placeBid`, keeping the states. -/
def applyBids (db : Db) (l : List BidAttempt) : Db :=
  l.foldl (fun d a => (placeBid d a.user a.itemId a.amount a.storageOk a.time).2) db

/-- Embeds `generate_item_id` (main.py:154-159): one random uppercase letter and
four random digit characters; the randomness is passed in explicitly.  The
function is called exactly once per submission — there is no collision
check or retry anywhere in the source. -/
def generate_item_id (l : Fin 26) (d1 d2 d3 d4 : Fin 10) : String :=
  String.mk [Char.ofNat (65 + l.val), Char.ofNat (48 + d1.val),
             Char.ofNat (48 + d2.val), Char.ofNat (48 + d3.val),
             Char.ofNat (48 + d4.val)]

/-- Shape check for an item id: one uppercase letter then four digits. -/
def idFormatOk (s : String) : Bool :=
  match s.data with
  | [c0, c1, c2, c3, c4] =>
    c0.isUpper && c1.isDigit && c2.isDigit && c3.isDigit && c4.isDigit
  | _ => false

/-- The kind-specific fields of a finished submission draft
(`context.user_data` at the end of the wizard). -/
structure Draft where
  itemType : String
  name : Option String
  tmNumber : Option Int
  tmName : Option String
  basePrice : Int
deriving DecidableEq, Repr

/-- The item row `complete_submission` inserts (main.py:508-538): status
`pending`, no bid fields set; `name` only for Pokémon drafts and
`tmNumber`/`tmName` only for TM drafts are carried by the draft itself. -/
def newPendingItem (u : Bidder) (d : Draft) (itemId : String) : Item :=
  { itemId := itemId, userId := u.id, username := u.username,
    itemType := d.itemType, name := d.name, tmNumber := d.tmNumber,
    tmName := d.tmName, basePrice := d.basePrice, status := "pending",
    highestBid := none, highestBidderId := none, highestBidderName := none }

/-- The user upsert of `complete_submission` (main.py:499-506):
`INSERT OR IGNORE` then an `UPDATE` bumping `submissions_count`. -/
def upsertSubmitter (users : List UserRow) (u : Bidder) : List UserRow :=
  let users1 :=
    if users.any (fun r => r.userId == u.id) then users
    else users ++ [{ userId := u.id, isBanned := false,
                     submissionsCount := 0, bidsCount := 0 }]
  users1.map (fun r =>
    if r.userId = u.id then { r with submissionsCount := r.submissionsCount + 1 }
    else r)

/-- The database effect of `complete_submission` (main.py:487-581).  The
item id is the single value `generate_item_id` returned.  `item_id` is the
PRIMARY KEY of `items`, so inserting a duplicate raises an IntegrityError;
the exception propagates before the `conn.commit()` on line 540, so the
user upsert is rolled back too and the whole submission fails. -/
def complete_submission (db : Db) (u : Bidder) (d : Draft) (itemId : String) :
    Except String Db :=
  if db.items.any (fun it => it.itemId == itemId) then
    Except.error "UNIQUE constraint failed: items.item_id"
  else
    Except.ok { db with users := upsertSubmitter db.users u,
                        items := db.items ++ [newPendingItem u d itemId] }

/-- Whether a submission attempt failed. -/
def submissionFailed (e : Except String Db) : Bool :=
  match e with
  | Except.error _ => true
  | Except.ok _ => false

/-- The row shape of the `bido` SELECT (main.py:1255-1259).  Exactly these
six columns come back; in particular `tm_number` and `username` are NOT
selected although the loop body accesses them. -/
structure BidoRow where
  itemId : String
  userId : Int
  highestBidderId : Option Int
  highestBid : Option Int
  name : Option String
  tmName : Option String
deriving DecidableEq, Repr

/-- The `bido` scan: all items with status `approved` and a non-NULL
`highest_bidder_id`, projected to the selected columns. -/
def bidoSelect (db : Db) : List BidoRow :=
  (db.items.filter (fun it => it.status == "approved" && it.highestBidderId.isSome)).map
    (fun it =>
      { itemId := it.itemId, userId := it.userId,
        highestBidderId := it.highestBidderId, highestBid := it.highestBid,
        name := it.name, tmName := it.tmName })

/-- Models the display-name line of the close-bidding loop (main.py:1267):
the name column if truthy, else an f-string built from the tm columns.
When the name is NULL (every TM item) or empty, the f-string accesses the
tm-number column, which the SELECT did not fetch, so the sqlite row
raises IndexError — outside any try/except, aborting the whole handler. -/
def bidoRowName (r : BidoRow) : Except String String :=
  match r.name with
  | some s => if s = "" then Except.error "IndexError: tm_number" else Except.ok s
  | none => Except.error "IndexError: tm_number"

/-- Models the per-item sold-status UPDATE by item id (main.py:1300),
each on its own committed connection. -/
def markItemSold (items : List Item) (itemId : String) : List Item :=
  items.map (fun it => if it.itemId = itemId then { it with status := "sold" } else it)

/-- The per-item loop of `bido` (main.py:1266-1304).  Both notification
sends sit in their own try/except and only log on failure, so they do not
touch the database; the display-name computation is not protected, so its
IndexError aborts the loop, leaving the remaining rows unprocessed (the
per-item status updates already made were committed one by one). -/
def closeLoop (items : List Item) (rows : List BidoRow) : List Item :=
  match rows with
  | [] => items
  | r :: rest =>
    match bidoRowName r with
    | Except.error _ => items
    | Except.ok _ => closeLoop (markItemSold items r.itemId) rest

/-- The `/bido` close-bidding handler (main.py:1246-1312): set
`bidding_open = 0`, snapshot the approved-with-bid rows, then run the
per-item loop. -/
def bido (db : Db) : Db :=
  let db2 := { db with biddingOpen := false }
  { db2 with items := closeLoop db2.items (bidoSelect db2) }

/-- The four statuses the cleanup deletes (main.py:1336-1339). -/
def cleanupStatuses : List String := ["sold", "ended", "rejected", "cancelled"]

/-- The confirm branch of `endo_callback` (main.py:1331-1348): delete the
terminal-status items, then delete the bids whose `item_id` no longer
matches any remaining item. -/
def cleanup (db : Db) : Db :=
  let items2 := db.items.filter (fun it => !(cleanupStatuses.contains it.status))
  let bids2 := db.bids.filter (fun b => items2.any (fun it => it.itemId == b.itemId))
  { db with items := items2, bids := bids2 }

/-! Concrete database values used by the witnesses and counterexamples. -/

/-- An approved Pokémon item with base price 25000 and no bid yet. -/
def pikachuItem : Item :=
  { itemId := "P0001", userId := 11, username := some "ash",
    itemType := "pokemon", name := some "Pikachu", tmNumber := none,
    tmName := none, basePrice := 25000, status := "approved",
    highestBid := none, highestBidderId := none, highestBidderName := none }

/-- An approved Pokémon item with base price 60000 and a standing 65000 bid. -/
def kinglerItem : Item :=
  { itemId := "K0001", userId := 12, username := some "brock",
    itemType := "pokemon", name := some "Kingler", tmNumber := none,
    tmName := none, basePrice := 60000, status := "approved",
    highestBid := some 65000, highestBidderId := some 3,
    highestBidderName := some "Gary" }

/-- An approved TM item (so `name` is NULL) with a standing bid. -/
def tmItem : Item :=
  { itemId := "T0001", userId := 10, username := some "seller",
    itemType := "tm", name := none, tmNumber := some 26,
    tmName := some "Earthquake", basePrice := 50000, status := "approved",
    highestBid := some 55000, highestBidderId := some 42,
    highestBidderName := some "Bob" }

/-- A bidder who owns none of the items above. -/
def wBidder : Bidder := { id := 2, username := some "misty", firstName := "Misty" }

/-- The owner of `pikachuItem`, attempting a self-bid. -/
def wOwner : Bidder := { id := 11, username := some "ash", firstName := "Ash" }

/-- Bidding open, one fresh Pokémon item, no users, no bids. -/
def wDb : Db :=
  { items := [pikachuItem], users := [], bids := [],
    submissionsOpen := false, biddingOpen := true }

/-- Bidding open, one item already carrying a 65000 bid. -/
def wDb65 : Db :=
  { items := [kinglerItem], users := [], bids := [],
    submissionsOpen := false, biddingOpen := true }

/-- Same store as `wDb` but with bidding closed. -/
def wDbClosed : Db :=
  { items := [pikachuItem], users := [], bids := [],
    submissionsOpen := false, biddingOpen := false }

/-- Same store as `wDb` but the bidder has a banned users row. -/
def wDbBan : Db :=
  { items := [pikachuItem],
    users := [{ userId := 2, isBanned := true, submissionsCount := 0, bidsCount := 0 }],
    bids := [], submissionsOpen := false, biddingOpen := true }

/-- Close-bidding scenario: a single TM item with a standing bid. -/
def dbTmOnly : Db :=
  { items := [tmItem],
    users := [],
    bids := [{ itemId := "T0001", userId := 42, username := some "bob",
               firstName := "Bob", amount := 55000, bidTime := "t1" }],
    submissionsOpen := false, biddingOpen := true }

/-- Close-bidding scenario: the faulting TM item first, then a Pokémon item
with a bid of its own. -/
def dbTmThenPoke : Db :=
  { items := [tmItem,
              { kinglerItem with highestBid := some 70000,
                                 highestBidderId := some 43,
                                 highestBidderName := some "May" }],
    users := [],
    bids := [{ itemId := "T0001", userId := 42, username := some "bob",
               firstName := "Bob", amount := 55000, bidTime := "t1" },
             { itemId := "K0001", userId := 43, username := some "may",
               firstName := "May", amount := 70000, bidTime := "t2" }],
    submissionsOpen := false, biddingOpen := true }

/-- A live item whose id `A1234` the random generator can collide with. -/
def mewItem : Item :=
  { itemId := "A1234", userId := 7, username := none,
    itemType := "pokemon", name := some "Mew", tmNumber := none,
    tmName := none, basePrice := 1000, status := "approved",
    highestBid := none, highestBidderId := none, highestBidderName := none }

/-- A store that already contains an item with id `A1234`. -/
def clashDb : Db :=
  { items := [mewItem],
    users := [], bids := [], submissionsOpen := true, biddingOpen := false }

/-- A finished Pokémon draft for the submission scenarios. -/
def wDraft : Draft :=
  { itemType := "pokemon", name := some "Eevee", tmNumber := none,
    tmName := none, basePrice := 5000 }

/-- A bid-history row referencing the surviving item `P0001`. -/
def rowP : BidRow :=
  { itemId := "P0001", userId := 2, username := some "misty",
    firstName := "Misty", amount := 26000, bidTime := "t1" }

/-- A bid-history row referencing the sold (hence cleaned-up) item `K0001`. -/
def rowK : BidRow :=
  { itemId := "K0001", userId := 3, username := some "gary",
    firstName := "Gary", amount := 65000, bidTime := "t2" }

/-- Cleanup scenario: one approved item with a bid row, one sold item with
an orphaned-to-be bid row. -/
def cleanupDbW : Db :=
  { items := [pikachuItem, { kinglerItem with status := "sold" }],
    users := [], bids := [rowP, rowK],
    submissionsOpen := false, biddingOpen := false }

/-- The bidding-lifetime invariant of an item store: item ids are unique
(the `items` PRIMARY KEY) and a recorded highest bid always exceeds the
item's base price. -/
def bidInv (db : Db) : Prop :=
  (db.items.map (fun it => it.itemId)).Nodup ∧
  ∀ it ∈ db.items, ∀ b, it.highestBid = some b → it.basePrice < b

/-- Consistency: an item showing a highest bid has a matching bid-history
row (same item id, same amount). -/
def hbMatched (db : Db) : Prop :=
  ∀ it ∈ db.items, ∀ b, it.highestBid = some b →
    ∃ r ∈ db.bids, r.itemId = it.itemId ∧ r.amount = b

/-- Consistency, the other direction: a bid-history row never references an
item that shows no highest bid at all. -/
def bidRowsCovered (db : Db) : Prop :=
  ∀ r ∈ db.bids, ∀ it ∈ db.items, it.itemId = r.itemId → it.highestBid ≠ none

/-- The `P0001` item as it stands after an accepted 27000 bid by `wBidder`. -/
def pikachuAfterBid : Item :=
  { pikachuItem with highestBid := some 27000, highestBidderId := some 2,
                     highestBidderName := some "Misty" }

/-- Unpacking the successful item lookup of `bid`. -/
lemma findApprovedItem_eq_some {db : Db} {iid : String} {item : Item}
    (h : findApprovedItem db iid = some item) :
    item ∈ db.items ∧ item.itemId = iid ∧ item.status = "approved" := by
  unfold findApprovedItem at h
  have hmem := List.mem_of_find?_eq_some h
  have hp := List.find?_some h
  simp only [Bool.and_eq_true, beq_iff_eq] at hp
  exact ⟨hmem, hp.1, hp.2⟩

/-- Every increment tier is positive. -/
lemma bidIncrement_pos (p : Int) : 0 < bidIncrement p := by
  unfold bidIncrement
  split_ifs <;> norm_num

/-- Master case split for `placeBid`: either every gate passed, the
storage committed and the transaction was applied, or the database is
returned unchanged and the outcome is not an acceptance. -/
lemma placeBid_spec (db : Db) (u : Bidder) (iid : String) (amt : Int)
    (ok : Bool) (t : String) :
    (∃ item, findApprovedItem db iid = some item ∧ 0 < amt ∧
      db.biddingOpen = true ∧ isBannedUser db u.id = false ∧
      u.id ≠ item.userId ∧
      currentPriceOf item + bidIncrement (currentPriceOf item) ≤ amt ∧
      ok = true ∧
      placeBid db u iid amt ok t =
        (BidOutcome.accepted amt, applyAcceptedBid db u iid amt t)) ∨
    ((placeBid db u iid amt ok t).2 = db ∧
      ∀ a, (placeBid db u iid amt ok t).1 ≠ BidOutcome.accepted a) := by
  rw [placeBid]
  split_ifs with h1 h2 h3
  · right; simp
  · right; simp
  · right; simp
  · rw [bidItemPhase]
    cases hfind : findApprovedItem db iid with
    | none => right; simp
    | some item =>
      by_cases hself : u.id = item.userId
      · right; simp [hself]
      · by_cases hlow : amt ≤ currentPriceOf item
        · right; simp [hself, hlow]
        · by_cases hinc : amt < currentPriceOf item + bidIncrement (currentPriceOf item)
          · right; simp [hself, hlow, hinc]
          · by_cases hok : ok = true
            · left
              exact ⟨item, rfl, by omega, by simpa using h2, by simpa using h3,
                     hself, by omega, hok, by simp [hself, hlow, hinc, hok]⟩
            · right; simp [hself, hlow, hinc, hok]

/-- The bid transaction does not touch item ids. -/
lemma applyAcceptedBid_itemIds (db : Db) (u : Bidder) (iid : String)
    (amt : Int) (t : String) :
    (applyAcceptedBid db u iid amt t).items.map (fun it => it.itemId) =
      db.items.map (fun it => it.itemId) := by
  simp only [applyAcceptedBid, List.map_map]
  apply List.map_congr_left
  intro it _
  by_cases h : it.itemId = iid <;> simp [h]

/-- An accepted bid strictly exceeds the current price of the found item,
and the resulting state is exactly the transactional update. -/
lemma accepted_gt_current {db : Db} {u : Bidder} {iid : String} {amt : Int}
    {ok : Bool} {t : String} {item : Item}
    (hfind : findApprovedItem db iid = some item)
    (hacc : (placeBid db u iid amt ok t).1 = BidOutcome.accepted amt) :
    currentPriceOf item < amt ∧ 0 < amt ∧
      (placeBid db u iid amt ok t).2 = applyAcceptedBid db u iid amt t := by
  rcases placeBid_spec db u iid amt ok t with
    ⟨item2, hfind2, hpos, _, _, _, hle, _, heq⟩ | ⟨_, hnot⟩
  · have hi : item = item2 := by rw [hfind] at hfind2; exact (Option.some.injEq _ _).mp hfind2
    subst hi
    have := bidIncrement_pos (currentPriceOf item)
    exact ⟨by omega, hpos, by rw [heq]⟩
  · exact absurd hacc (hnot amt)

/-- One `placeBid` step preserves the bidding-lifetime invariant. -/
lemma placeBid_preserves_bidInv (db : Db) (u : Bidder) (iid : String)
    (amt : Int) (ok : Bool) (t : String) (hinv : bidInv db) :
    bidInv (placeBid db u iid amt ok t).2 := by
  rcases placeBid_spec db u iid amt ok t with
    ⟨item, hfind, hpos, _, _, _, hle, _, heq⟩ | ⟨hsame, _⟩
  · rw [heq]
    obtain ⟨hmem, hid, _⟩ := findApprovedItem_eq_some hfind
    constructor
    · rw [applyAcceptedBid_itemIds]; exact hinv.1
    · intro it2 hit2 b hb
      simp only [applyAcceptedBid, List.mem_map] at hit2
      obtain ⟨it, hit, heq2⟩ := hit2
      by_cases h : it.itemId = iid
      · have hii : it = item := List.inj_on_of_nodup_map hinv.1 hit hmem (by rw [h, hid])
        subst hii
        rw [if_pos h] at heq2
        subst heq2
        have hba : amt = b := by simpa using hb
        subst hba
        have hinc := bidIncrement_pos (currentPriceOf it)
        show it.basePrice < amt
        rcases hcase : it.highestBid with _ | b0
        · have hcp : currentPriceOf it = it.basePrice := by
            simp [currentPriceOf, hcase]
          omega
        · have hb0 := hinv.2 it hit b0 hcase
          rcases eq_or_ne b0 0 with h0 | h0
          · have hcp : currentPriceOf it = it.basePrice := by
              simp [currentPriceOf, hcase, h0]
            omega
          · have hcp : currentPriceOf it = b0 := by
              simp [currentPriceOf, hcase, h0]
            omega
      · rw [if_neg h] at heq2
        subst heq2
        exact hinv.2 it hit b hb
  · rw [hsame]; exact hinv

/-- Claim C2: each accepted bid strictly exceeds the previous highest bid
(or the base price when none existed), every item carrying the bid ends up
showing the new amount, and across any sequence of bid attempts a store
satisfying the invariant (unique ids, highest bid above base price) still
satisfies it. -/
theorem highest_bid_strictly_increasing :
    (∀ (db : Db) (u : Bidder) (iid : String) (amt : Int) (ok : Bool)
        (t : String) (item : Item),
      findApprovedItem db iid = some item →
      (placeBid db u iid amt ok t).1 = BidOutcome.accepted amt →
      (∀ b, item.highestBid = some b → b < amt) ∧
      (item.highestBid = none → item.basePrice < amt) ∧
      (∀ it2 ∈ (placeBid db u iid amt ok t).2.items, it2.itemId = iid →
        it2.highestBid = some amt)) ∧
    (∀ (db : Db) (l : List BidAttempt), bidInv db → bidInv (applyBids db l)) := by
  constructor
  · intro db u iid amt ok t item hfind hacc
    obtain ⟨hgt, hpos, hst⟩ := accepted_gt_current hfind hacc
    refine ⟨?_, ?_, ?_⟩
    · intro b hb
      rcases eq_or_ne b 0 with hb0 | hb0
      · omega
      · have hcp : currentPriceOf item = b := by simp [currentPriceOf, hb, hb0]
        omega
    · intro hb
      have hcp : currentPriceOf item = item.basePrice := by simp [currentPriceOf, hb]
      omega
    · intro it2 hit2 hid2
      rw [hst] at hit2
      simp only [applyAcceptedBid, List.mem_map] at hit2
      obtain ⟨it, _, heq2⟩ := hit2
      by_cases h : it.itemId = iid
      · rw [if_pos h] at heq2; subst heq2; rfl
      · rw [if_neg h] at heq2; subst heq2; exact absurd hid2 h
  · intro db l hinv
    induction l generalizing db with
    | nil => exact hinv
    | cons a rest ih =>
      exact ih _ (placeBid_preserves_bidInv db a.user a.itemId a.amount a.storageOk a.time hinv)

/-- Claim C3: a bid either commits all three writes of the transaction —
the item's bid fields, one appended history row, the bidder's counter — or
leaves the database completely unchanged with a non-accepted outcome; both
directions of the item/history consistency invariant are preserved; and a
bid that passed every validation gate but whose storage unit fails is
reported with the generic processing-failed outcome, the database rolled
back unchanged. -/
theorem bid_update_atomic :
    ∀ (db : Db) (u : Bidder) (iid : String) (amt : Int) (ok : Bool) (t : String),
      (((placeBid db u iid amt ok t).1 = BidOutcome.accepted amt ∧
        (placeBid db u iid amt ok t).2.items = db.items.map (fun it =>
          if it.itemId = iid then
            { it with highestBid := some amt, highestBidderId := some u.id,
                      highestBidderName := some u.firstName }
          else it) ∧
        (placeBid db u iid amt ok t).2.bids = db.bids ++
          [{ itemId := iid, userId := u.id, username := u.username,
             firstName := u.firstName, amount := amt, bidTime := t }] ∧
        (placeBid db u iid amt ok t).2.users = db.users.map (fun r =>
          if r.userId = u.id then { r with bidsCount := r.bidsCount + 1 } else r)) ∨
       ((placeBid db u iid amt ok t).2 = db ∧
        ∀ a, (placeBid db u iid amt ok t).1 ≠ BidOutcome.accepted a)) ∧
      (hbMatched db → hbMatched (placeBid db u iid amt ok t).2) ∧
      (bidRowsCovered db → bidRowsCovered (placeBid db u iid amt ok t).2) ∧
      (∀ item, ok = false → 0 < amt → db.biddingOpen = true →
        isBannedUser db u.id = false → findApprovedItem db iid = some item →
        u.id ≠ item.userId →
        currentPriceOf item + bidIncrement (currentPriceOf item) ≤ amt →
        placeBid db u iid amt ok t = (BidOutcome.processingFailed, db)) := by
  intro db u iid amt ok t
  have hfailed : ∀ item, ok = false → 0 < amt → db.biddingOpen = true →
      isBannedUser db u.id = false → findApprovedItem db iid = some item →
      u.id ≠ item.userId →
      currentPriceOf item + bidIncrement (currentPriceOf item) ≤ amt →
      placeBid db u iid amt ok t = (BidOutcome.processingFailed, db) := by
    intro item hok hpos hopen hban hfind hown hle
    have hneg : ¬ amt ≤ 0 := by omega
    have hlow : ¬ amt ≤ currentPriceOf item := by
      have := bidIncrement_pos (currentPriceOf item)
      omega
    have hinc2 : ¬ amt < currentPriceOf item + bidIncrement (currentPriceOf item) := by
      omega
    simp [placeBid, bidItemPhase, hneg, hopen, hban, hfind, hown, hlow, hinc2, hok]
  rcases placeBid_spec db u iid amt ok t with
    ⟨item, hfind, _, _, _, _, _, _, heq⟩ | ⟨hsame, hnot⟩
  · refine ⟨Or.inl ⟨by rw [heq], by rw [heq]; rfl, by rw [heq]; rfl, by rw [heq]; rfl⟩,
      ?_, ?_, hfailed⟩
    · intro hm
      rw [heq]
      intro it2 hit2 b hb
      simp only [applyAcceptedBid, List.mem_map] at hit2
      obtain ⟨it, hit, heq2⟩ := hit2
      by_cases h : it.itemId = iid
      · rw [if_pos h] at heq2
        subst heq2
        have hba : amt = b := by simpa using hb
        subst hba
        refine ⟨{ itemId := iid, userId := u.id, username := u.username,
                  firstName := u.firstName, amount := amt, bidTime := t }, ?_, ?_, rfl⟩
        · simp [applyAcceptedBid]
        · simpa using h.symm
      · rw [if_neg h] at heq2
        subst heq2
        obtain ⟨r, hr, hrid, hramt⟩ := hm it hit b hb
        exact ⟨r, by simp [applyAcceptedBid, hr], hrid, hramt⟩
    · intro hc
      rw [heq]
      intro r hr it2 hit2 hid2
      simp only [applyAcceptedBid, List.mem_map] at hit2
      obtain ⟨it, hit, heq2⟩ := hit2
      by_cases h : it.itemId = iid
      · rw [if_pos h] at heq2
        subst heq2
        simp
      · rw [if_neg h] at heq2
        subst heq2
        simp only [applyAcceptedBid, List.mem_append, List.mem_singleton] at hr
        rcases hr with hr | hr
        · exact hc r hr it hit hid2
        · subst hr
          exact absurd (by simpa using hid2) h
  · refine ⟨Or.inr ⟨hsame, hnot⟩, ?_, ?_, hfailed⟩
    · intro hm; rw [hsame]; exact hm
    · intro hc; rw [hsame]; exact hc

/-- Claim C4: with a well-formed positive amount, the gates of `bid` fire
in source order — phase, ban, item lookup, ownership, price — and each
failing gate returns its own outcome with the database untouched; in
particular a banned bidder is turned away for every amount, before any
price computation. -/
theorem bid_precondition_order :
    ∀ (db : Db) (u : Bidder) (iid : String) (amt : Int) (ok : Bool) (t : String),
      0 < amt →
      (db.biddingOpen = false →
        placeBid db u iid amt ok t = (BidOutcome.biddingClosed, db)) ∧
      (db.biddingOpen = true → isBannedUser db u.id = true →
        placeBid db u iid amt ok t = (BidOutcome.bidderBanned, db)) ∧
      (db.biddingOpen = true → isBannedUser db u.id = false →
        findApprovedItem db iid = none →
        placeBid db u iid amt ok t = (BidOutcome.itemNotBiddable, db)) ∧
      (∀ item, db.biddingOpen = true → isBannedUser db u.id = false →
        findApprovedItem db iid = some item → u.id = item.userId →
        placeBid db u iid amt ok t = (BidOutcome.selfBid, db)) ∧
      (∀ item, db.biddingOpen = true → isBannedUser db u.id = false →
        findApprovedItem db iid = some item → u.id ≠ item.userId →
        amt < currentPriceOf item + bidIncrement (currentPriceOf item) →
        (placeBid db u iid amt ok t = (BidOutcome.notHigher (currentPriceOf item), db) ∨
         placeBid db u iid amt ok t =
           (BidOutcome.belowMinIncrement (bidIncrement (currentPriceOf item))
             (currentPriceOf item + bidIncrement (currentPriceOf item)), db))) := by
  intro db u iid amt ok t hpos
  have hneg : ¬ amt ≤ 0 := by omega
  refine ⟨?_, ?_, ?_, ?_, ?_⟩
  · intro hclosed
    simp [placeBid, hneg, hclosed]
  · intro hopen hban
    simp [placeBid, hneg, hopen, hban]
  · intro hopen hban hfind
    simp [placeBid, bidItemPhase, hneg, hopen, hban, hfind]
  · intro item hopen hban hfind hown
    simp only [placeBid, bidItemPhase, hneg, hopen, hban, hfind, if_neg hneg]
    simp [if_pos hown]
  · intro item hopen hban hfind hown hlt
    by_cases hlow : amt ≤ currentPriceOf item
    · left
      simp [placeBid, bidItemPhase, hneg, hopen, hban, hfind, hown, hlow]
    · right
      simp [placeBid, bidItemPhase, hneg, hopen, hban, hfind, hown, hlow, hlt]

/-- Claim C1 (amended): the increment tiers are 5000 / 2000 / 1000 exactly
as the price bands say, computed from the current price before the bid; a
bid with the gates passed and the storage committing is accepted exactly
when it reaches current price plus increment; a bid strictly between the
current price and that minimum is rejected reporting the minimum; but a
bid at or below the current price is rejected reporting only the current
price, not the increment-based minimum. -/
theorem bid_increment_tiers_amended :
    ∀ (db : Db) (u : Bidder) (iid : String) (amt : Int) (t : String) (item : Item),
      0 < amt → db.biddingOpen = true → isBannedUser db u.id = false →
      findApprovedItem db iid = some item → u.id ≠ item.userId →
      (((50000 : Int) ≤ currentPriceOf item →
          bidIncrement (currentPriceOf item) = 5000) ∧
       ((20000 : Int) ≤ currentPriceOf item → currentPriceOf item < 50000 →
          bidIncrement (currentPriceOf item) = 2000) ∧
       (currentPriceOf item < 20000 →
          bidIncrement (currentPriceOf item) = 1000)) ∧
      ((placeBid db u iid amt true t).1 = BidOutcome.accepted amt ↔
        currentPriceOf item + bidIncrement (currentPriceOf item) ≤ amt) ∧
      (currentPriceOf item < amt →
        amt < currentPriceOf item + bidIncrement (currentPriceOf item) →
        placeBid db u iid amt true t =
          (BidOutcome.belowMinIncrement (bidIncrement (currentPriceOf item))
            (currentPriceOf item + bidIncrement (currentPriceOf item)), db)) ∧
      (amt ≤ currentPriceOf item →
        placeBid db u iid amt true t =
          (BidOutcome.notHigher (currentPriceOf item), db)) := by
  intro db u iid amt t item hpos hopen hban hfind hown
  have hneg : ¬ amt ≤ 0 := by omega
  refine ⟨⟨?_, ?_, ?_⟩, ?_, ?_, ?_⟩
  · intro h
    simp only [bidIncrement]
    rw [if_pos (by omega)]
  · intro h1 h2
    simp only [bidIncrement]
    rw [if_neg (by omega), if_pos (by omega)]
  · intro h
    simp only [bidIncrement]
    rw [if_neg (by omega), if_neg (by omega)]
  · constructor
    · intro hacc
      obtain ⟨_, _, _⟩ := accepted_gt_current hfind hacc
      rcases placeBid_spec db u iid amt true t with
        ⟨item2, hfind2, _, _, _, _, hle, _, _⟩ | ⟨_, hnot⟩
      · have hi : item = item2 := by
          rw [hfind] at hfind2
          exact (Option.some.injEq _ _).mp hfind2
        subst hi
        exact hle
      · exact absurd hacc (hnot amt)
    · intro hle
      have hlow : ¬ amt ≤ currentPriceOf item := by
        have := bidIncrement_pos (currentPriceOf item)
        omega
      simp [placeBid, bidItemPhase, hneg, hopen, hban, hfind, hown, hlow,
            show ¬ amt < currentPriceOf item + bidIncrement (currentPriceOf item) by omega]
  · intro h1 h2
    have hlow : ¬ amt ≤ currentPriceOf item := by omega
    simp [placeBid, bidItemPhase, hneg, hopen, hban, hfind, hown, hlow, h2]
  · intro h
    simp [placeBid, bidItemPhase, hneg, hopen, hban, hfind, hown, h]

/-- Claim C8: a bid by the item's owner never succeeds and never changes
the database, for every amount; once the phase, ban and lookup gates pass
it fails specifically with the self-bid outcome. -/
theorem self_bid_always_rejected :
    ∀ (db : Db) (u : Bidder) (iid : String) (amt : Int) (ok : Bool)
        (t : String) (item : Item),
      findApprovedItem db iid = some item → u.id = item.userId →
      ((placeBid db u iid amt ok t).2 = db ∧
       ∀ a, (placeBid db u iid amt ok t).1 ≠ BidOutcome.accepted a) ∧
      (0 < amt → db.biddingOpen = true → isBannedUser db u.id = false →
        placeBid db u iid amt ok t = (BidOutcome.selfBid, db)) := by
  intro db u iid amt ok t item hfind hown
  constructor
  · rcases placeBid_spec db u iid amt ok t with
      ⟨item2, hfind2, _, _, _, hne, _, _, _⟩ | h
    · have hi : item = item2 := by
        rw [hfind] at hfind2
        exact (Option.some.injEq _ _).mp hfind2
      subst hi
      exact absurd hown hne
    · exact h
  · intro hpos hopen hban
    have hneg : ¬ amt ≤ 0 := by omega
    simp only [placeBid, bidItemPhase, hfind, if_neg hneg, hopen, hban]
    simp [if_pos hown]

/-- Helper: `bidItemPhase` can never report the ban outcome: the ban gate sits
strictly before it in `bid`. -/
lemma bidItemPhase_no_ban (db : Db) (u : Bidder) (iid : String) (amt : Int)
    (ok : Bool) (t : String) :
    (bidItemPhase db u iid amt ok t).1 ≠ BidOutcome.bidderBanned := by
  rw [bidItemPhase]
  cases hfind : findApprovedItem db iid with
  | none => simp
  | some item =>
    by_cases h1 : u.id = item.userId
    · simp [h1]
    · by_cases h2 : amt ≤ currentPriceOf item
      · simp [h1, h2]
      · by_cases h3 : amt < currentPriceOf item + bidIncrement (currentPriceOf item)
        · simp [h1, h2, h3]
        · by_cases h4 : ok = true <;> simp [h1, h2, h3, h4]

/-- Claim C10: a bidder with no row in the `users` table is treated as not
banned; with the phase gate open the bid proceeds directly to the
item-lookup phase and can never be turned away as banned. -/
theorem unknown_bidder_not_banned :
    ∀ (db : Db) (u : Bidder) (iid : String) (amt : Int) (ok : Bool) (t : String),
      lookupUser db u.id = none →
      isBannedUser db u.id = false ∧
      (0 < amt → db.biddingOpen = true →
        placeBid db u iid amt ok t = bidItemPhase db u iid amt ok t ∧
        (placeBid db u iid amt ok t).1 ≠ BidOutcome.bidderBanned) := by
  intro db u iid amt ok t hlook
  have hban : isBannedUser db u.id = false := by
    simp [isBannedUser, hlook]
  refine ⟨hban, ?_⟩
  intro hpos hopen
  have hneg : ¬ amt ≤ 0 := by omega
  have hph : placeBid db u iid amt ok t = bidItemPhase db u iid amt ok t := by
    simp [placeBid, hneg, hopen, hban]
  exact ⟨hph, by rw [hph]; exact bidItemPhase_no_ban db u iid amt ok t⟩

/-- Claim C7: cleanup deletes exactly the items in a terminal status and
exactly the bid rows left without a surviving item; pending/approved items
and the bid rows referencing them survive untouched (order preserved), and
no other table or flag is affected. -/
theorem cleanup_frame :
    ∀ db : Db,
      (∀ it : Item, it ∈ (cleanup db).items ↔
        it ∈ db.items ∧ cleanupStatuses.contains it.status = false) ∧
      (∀ b : BidRow, b ∈ (cleanup db).bids ↔
        b ∈ db.bids ∧ ∃ it : Item, it ∈ db.items ∧
          cleanupStatuses.contains it.status = false ∧ it.itemId = b.itemId) ∧
      List.Sublist (cleanup db).items db.items ∧
      List.Sublist (cleanup db).bids db.bids ∧
      (cleanup db).users = db.users ∧
      (cleanup db).submissionsOpen = db.submissionsOpen ∧
      (cleanup db).biddingOpen = db.biddingOpen ∧
      (∀ it : Item, it ∈ db.items →
        (it.status = "pending" ∨ it.status = "approved") →
        it ∈ (cleanup db).items) ∧
      (∀ (b : BidRow) (it : Item), b ∈ db.bids → it ∈ db.items →
        it.itemId = b.itemId →
        (it.status = "pending" ∨ it.status = "approved") →
        b ∈ (cleanup db).bids) := by
  intro db
  have hitems : ∀ it : Item, it ∈ (cleanup db).items ↔
      it ∈ db.items ∧ cleanupStatuses.contains it.status = false := by
    intro it
    simp [cleanup, List.mem_filter]
  have hstat : ∀ it : Item, (it.status = "pending" ∨ it.status = "approved") →
      cleanupStatuses.contains it.status = false := by
    intro it h
    rcases h with h | h <;> rw [h] <;> decide
  have hbids : ∀ b : BidRow, b ∈ (cleanup db).bids ↔
      b ∈ db.bids ∧ ∃ it : Item, it ∈ db.items ∧
        cleanupStatuses.contains it.status = false ∧ it.itemId = b.itemId := by
    intro b
    simp only [cleanup, List.mem_filter, List.any_eq_true, beq_iff_eq]
    constructor
    · rintro ⟨hb, it, hit, hid⟩
      exact ⟨hb, it, hit.1, by simpa using hit.2, hid⟩
    · rintro ⟨hb, it, hit, hst, hid⟩
      exact ⟨hb, it, ⟨hit, by simpa using hst⟩, hid⟩
  refine ⟨hitems, hbids, ?_, ?_, rfl, rfl, rfl, ?_, ?_⟩
  · exact List.filter_sublist _
  · exact List.filter_sublist _
  · intro it hit hst
    exact (hitems it).mpr ⟨hit, hstat it hst⟩
  · intro b it hb hit hid hst
    exact (hbids b).mpr ⟨hb, it, hit, hstat it hst, hid⟩

/-- A choice from the uppercase alphabet always yields an uppercase
letter. -/
lemma upperCharOfFin : ∀ l : Fin 26, (Char.ofNat (65 + l.val)).isUpper = true := by
  decide

/-- A choice from the decimal digits always yields a digit character. -/
lemma digitCharOfFin : ∀ d : Fin 10, (Char.ofNat (48 + d.val)).isDigit = true := by
  decide

/-- Claim C6 (amended): every generated id is one uppercase letter and four
digits, but it is generated exactly once with no collision check: a
submission whose id collides with a live item fails on the `items` primary
key instead of regenerating, and a submission that succeeds did not
collide, so no item is ever created with a duplicate id. -/
theorem item_id_generation_amended :
    (∀ (l : Fin 26) (d1 d2 d3 d4 : Fin 10),
      idFormatOk (generate_item_id l d1 d2 d3 d4) = true) ∧
    (∀ (db : Db) (u : Bidder) (d : Draft) (iid : String),
      ((∃ it ∈ db.items, it.itemId = iid) →
        submissionFailed (complete_submission db u d iid) = true) ∧
      (∀ db2, complete_submission db u d iid = Except.ok db2 →
        (∀ it ∈ db.items, it.itemId ≠ iid) ∧
        db2.items = db.items ++ [newPendingItem u d iid])) := by
  constructor
  · intro l d1 d2 d3 d4
    show (((((Char.ofNat (65 + l.val)).isUpper &&
        (Char.ofNat (48 + d1.val)).isDigit) &&
        (Char.ofNat (48 + d2.val)).isDigit) &&
        (Char.ofNat (48 + d3.val)).isDigit) &&
        (Char.ofNat (48 + d4.val)).isDigit) = true
    simp [upperCharOfFin l, digitCharOfFin d1, digitCharOfFin d2,
          digitCharOfFin d3, digitCharOfFin d4]
  · intro db u d iid
    constructor
    · rintro ⟨it, hit, hid⟩
      have hany : db.items.any (fun it => it.itemId == iid) = true := by
        rw [List.any_eq_true]
        exact ⟨it, hit, by simpa using hid⟩
      simp [complete_submission, hany, submissionFailed]
    · intro db2 hok
      by_cases hany : db.items.any (fun it => it.itemId == iid) = true
      · rw [complete_submission, if_pos hany] at hok
        cases hok
      · rw [complete_submission, if_neg hany] at hok
        have hdb2 := (Except.ok.injEq _ _).mp hok.symm
        constructor
        · intro it hit
          rw [List.any_eq_true] at hany
          intro hid
          exact hany ⟨it, hit, by simpa using hid⟩
        · rw [hdb2]

/-- Claim C1 counterexample: with current price 25000 (tier increment 2000,
minimum acceptable 27000), a bid of 24000 is rejected with the
must-be-higher message, which reports only the current price 25000 — not
the minimum acceptable amount 27000 the claim promises for every rejected
bid. -/
theorem bid_reported_minimum_counterexample :
    currentPriceOf pikachuItem = 25000 ∧
    bidIncrement 25000 = 2000 ∧
    placeBid wDb wBidder "P0001" 24000 true "t" = (BidOutcome.notHigher 25000, wDb) ∧
    BidOutcome.notHigher 25000 ≠ BidOutcome.belowMinIncrement 2000 27000 ∧
    (25000 : Int) ≠ 25000 + 2000 := by
  decide

/-- Claim C6 counterexample: the generator can return the id of a live
item, and the submission then simply fails on the primary key — it is not
regenerated until unique. -/
theorem item_id_no_retry_counterexample :
    generate_item_id (0 : Fin 26) (1 : Fin 10) (2 : Fin 10) (3 : Fin 10) (4 : Fin 10) = "A1234" ∧
    clashDb.items.map (fun it => it.itemId) = ["A1234"] ∧
    submissionFailed (complete_submission clashDb wBidder wDraft
      (generate_item_id (0 : Fin 26) (1 : Fin 10) (2 : Fin 10) (3 : Fin 10) (4 : Fin 10))) = true := by
  decide

/-- Claim C5: an approved TM item with a bid (so `name` is NULL) makes the
close-bidding loop raise IndexError at the display-name line — its
`tm_number` was never selected — so the item stays `approved` instead of
transitioning to `sold`. -/
theorem close_bidding_tm_item_stays_approved :
    tmItem.status = "approved" ∧
    tmItem.highestBidderId.isSome = true ∧
    (bido dbTmOnly).biddingOpen = false ∧
    (bido dbTmOnly).items.map (fun it => it.status) = ["approved"] := by
  decide

/-- Claim C9: the per-item fault of the faulting TM row aborts the whole
close-bidding loop, so the later Pokémon item — itself perfectly
processable and carrying a bid — is never transitioned to `sold`. -/
theorem close_bidding_fault_blocks_rest :
    dbTmThenPoke.items.map (fun it => it.status) = ["approved", "approved"] ∧
    dbTmThenPoke.items.map (fun it => it.highestBidderId.isSome) = [true, true] ∧
    (dbTmThenPoke.items.map (fun it => it.name)).head? = some none ∧
    (bido dbTmThenPoke).items.map (fun it => it.status) = ["approved", "approved"] := by
  decide

/-- Sanity: an item whose `name` column is set (every Pokémon item) is
transitioned to `sold` by close-bidding as intended. -/
lemma bido_sells_named_item :
    (bido wDb65).items.map (fun it => it.status) = ["sold"] := by
  decide

/-- Witness for C1 (amended): the spec's own worked examples.  Base price
25000: 26500 is rejected with minimum 27000 and 27000 is accepted; current
price 65000: 66000 is rejected with minimum 70000. -/
theorem bid_increment_tiers_amended_witness :
    placeBid wDb wBidder "P0001" 26500 true "t" =
      (BidOutcome.belowMinIncrement 2000 27000, wDb) ∧
    (placeBid wDb wBidder "P0001" 27000 true "t").1 = BidOutcome.accepted 27000 ∧
    placeBid wDb65 wBidder "K0001" 66000 true "t" =
      (BidOutcome.belowMinIncrement 5000 70000, wDb65) := by
  refine ⟨?_, ?_, ?_⟩
  · have h := bid_increment_tiers_amended wDb wBidder "P0001" 26500 "t" pikachuItem
      (by decide) (by decide) (by decide) (by decide) (by decide)
    exact h.2.2.1 (by decide) (by decide)
  · have h := bid_increment_tiers_amended wDb wBidder "P0001" 27000 "t" pikachuItem
      (by decide) (by decide) (by decide) (by decide) (by decide)
    exact h.2.1.mpr (by decide)
  · have h := bid_increment_tiers_amended wDb65 wBidder "K0001" 66000 "t" kinglerItem
      (by decide) (by decide) (by decide) (by decide) (by decide)
    exact h.2.2.1 (by decide) (by decide)

/-- Witness for C2: an accepted 27000 bid on the 25000 item leaves the item
showing 27000, and the invariant holds after running that attempt. -/
theorem highest_bid_strictly_increasing_witness :
    pikachuAfterBid.highestBid = some 27000 ∧
    bidInv (applyBids wDb [{ user := wBidder, itemId := "P0001", amount := 27000,
                             storageOk := true, time := "t" }]) := by
  constructor
  · exact (highest_bid_strictly_increasing.1 wDb wBidder "P0001" 27000 true "t"
      pikachuItem (by decide) (by decide)).2.2
      pikachuAfterBid (by decide) (by decide)
  · refine highest_bid_strictly_increasing.2 wDb
      [{ user := wBidder, itemId := "P0001", amount := 27000,
         storageOk := true, time := "t" }] ⟨by decide, ?_⟩
    intro it hit b hb
    rw [show wDb.items = [pikachuItem] from rfl, List.mem_singleton] at hit
    subst hit
    simp [pikachuItem] at hb

/-- Witness for C3: the accepted 27000 bid appends exactly one history row,
the committed state still satisfies the bid/history consistency, and the
same qualifying bid with the storage unit failing is reported as
processing-failed with the store unchanged. -/
theorem bid_update_atomic_witness :
    (placeBid wDb wBidder "P0001" 27000 true "t").2.bids =
      [{ itemId := "P0001", userId := 2, username := some "misty",
         firstName := "Misty", amount := 27000, bidTime := "t" }] ∧
    hbMatched (placeBid wDb wBidder "P0001" 27000 true "t").2 ∧
    placeBid wDb wBidder "P0001" 27000 false "t" =
      (BidOutcome.processingFailed, wDb) := by
  have h := bid_update_atomic wDb wBidder "P0001" 27000 true "t"
  have hwm : hbMatched wDb := by
    intro it hit b hb
    rw [show wDb.items = [pikachuItem] from rfl, List.mem_singleton] at hit
    subst hit
    simp [pikachuItem] at hb
  refine ⟨?_, h.2.1 hwm,
    (bid_update_atomic wDb wBidder "P0001" 27000 false "t").2.2.2 pikachuItem rfl
      (by decide) (by decide) (by decide) (by decide) (by decide) (by decide)⟩
  rcases h.1 with hacc | hfail
  · rw [hacc.2.2.1]; rfl
  · exact absurd (by decide :
      (placeBid wDb wBidder "P0001" 27000 true "t").1 = BidOutcome.accepted 27000)
      (hfail.2 27000)

/-- Witness for C4: a closed phase, a banned bidder and a missing item each
produce their own rejection on a concrete store, for a qualifying amount. -/
theorem bid_precondition_order_witness :
    placeBid wDbClosed wBidder "P0001" 27000 true "t" =
      (BidOutcome.biddingClosed, wDbClosed) ∧
    placeBid wDbBan wBidder "P0001" 27000 true "t" =
      (BidOutcome.bidderBanned, wDbBan) ∧
    placeBid wDb wBidder "Z9999" 27000 true "t" =
      (BidOutcome.itemNotBiddable, wDb) := by
  refine ⟨?_, ?_, ?_⟩
  · exact (bid_precondition_order wDbClosed wBidder "P0001" 27000 true "t"
      (by decide)).1 (by decide)
  · exact (bid_precondition_order wDbBan wBidder "P0001" 27000 true "t"
      (by decide)).2.1 (by decide) (by decide)
  · exact (bid_precondition_order wDb wBidder "Z9999" 27000 true "t"
      (by decide)).2.2.1 (by decide) (by decide) (by decide)

/-- Witness for C6 (amended): a generated id has the letter-digits shape,
and the submission into a store already holding that id fails. -/
theorem item_id_generation_amended_witness :
    idFormatOk (generate_item_id (0 : Fin 26) (1 : Fin 10) (2 : Fin 10)
      (3 : Fin 10) (4 : Fin 10)) = true ∧
    submissionFailed (complete_submission clashDb wBidder wDraft "A1234") = true := by
  refine ⟨item_id_generation_amended.1 (0 : Fin 26) (1 : Fin 10) (2 : Fin 10)
    (3 : Fin 10) (4 : Fin 10), ?_⟩
  exact (item_id_generation_amended.2 clashDb wBidder wDraft "A1234").1
    ⟨mewItem, by decide, rfl⟩

/-- Witness for C7: on a concrete store the approved item and its bid row
survive cleanup, and only they survive. -/
theorem cleanup_frame_witness :
    pikachuItem ∈ (cleanup cleanupDbW).items ∧
    rowP ∈ (cleanup cleanupDbW).bids ∧
    (cleanup cleanupDbW).items.map (fun it => it.itemId) = ["P0001"] ∧
    (cleanup cleanupDbW).bids.map (fun b => b.itemId) = ["P0001"] := by
  have h := cleanup_frame cleanupDbW
  exact ⟨h.2.2.2.2.2.2.2.1 pikachuItem (by decide) (Or.inr (by decide)),
         h.2.2.2.2.2.2.2.2 rowP pikachuItem (by decide) (by decide) (by decide)
           (Or.inr (by decide)),
         by decide, by decide⟩

/-- Witness for C8: the owner of the 25000 item bids 999999 on it and is
rejected with the self-bid outcome, the store unchanged. -/
theorem self_bid_always_rejected_witness :
    placeBid wDb wOwner "P0001" 999999 true "t" = (BidOutcome.selfBid, wDb) := by
  exact (self_bid_always_rejected wDb wOwner "P0001" 999999 true "t" pikachuItem
    (by decide) (by decide)).2 (by decide) (by decide) (by decide)

/-- Witness for C10: the bidder has no users row in `wDb`; the ban gate
passes and the bid proceeds to the item phase. -/
theorem unknown_bidder_not_banned_witness :
    isBannedUser wDb wBidder.id = false ∧
    placeBid wDb wBidder "P0001" 27000 true "t" =
      bidItemPhase wDb wBidder "P0001" 27000 true "t" ∧
    (placeBid wDb wBidder "P0001" 27000 true "t").1 ≠ BidOutcome.bidderBanned := by
  have h := unknown_bidder_not_banned wDb wBidder "P0001" 27000 true "t" (by decide)
  exact ⟨h.1, (h.2 (by decide) (by decide)).1, (h.2 (by decide) (by decide)).2⟩
